import Mathlib

/-!
Shallow embedding of the FasterSite image-gallery applications
(faster-site, unsplash-faster) for verification of the natural-language
specification.  Pure query, cache and client-prefetch logic is translated
into executable Lean functions; external effects (the Postgres engine's
full-text matcher, S3 URL signing, the Unsplash API, the DB insert layer)
enter as explicit oracle parameters, so every control path of the source
is represented.
-/

namespace FasterSite

/-- The `categories` table row (lib/schema.ts): serial primary key `id`,
non-null unique `slug`, non-null `name`, `createdAt` timestamp. -/
structure Category where
  id : Nat
  slug : String
  name : String
  createdAt : Nat := 0
deriving Repr, DecidableEq

/-- The `images` table row (lib/schema.ts): serial primary key `id`,
non-null `title`, nullable `description`, non-null `s3Key` and `s3Url`,
nullable foreign key `categoryId` referencing `categories.id`, nullable
`width`, `height`, `fileSize`, nullable unique `contentHash`, `createdAt`,
and the Unsplash provenance fields. -/
structure Image where
  id : Nat
  title : String
  description : Option String
  s3Key : String
  s3Url : String
  categoryId : Option Nat
  width : Option Nat := none
  height : Option Nat := none
  fileSize : Option Nat := none
  contentHash : Option String := none
  createdAt : Nat := 0
  unsplashId : Option String := none
  unsplashUserId : Option String := none
  unsplashLikes : Int := 0
deriving Repr, DecidableEq

/-- Fixture builder for a category row with default timestamp. -/
def mkCategory (id : Nat) (slug name : String) : Category :=
  { id := id, slug := slug, name := name }

/-- Fixture builder for an image row with default optional fields. -/
def mkImage (id : Nat) (title : String) (description : Option String)
    (s3Key s3Url : String) (categoryId : Option Nat) : Image :=
  { id := id, title := title, description := description, s3Key := s3Key,
    s3Url := s3Url, categoryId := categoryId }

instance {ε α : Type} [DecidableEq ε] [DecidableEq α] :
    DecidableEq (Except ε α) := fun x y =>
  match x, y with
  | Except.ok a, Except.ok b =>
      if h : a = b then isTrue (by rw [h]) else isFalse (by simp [h])
  | Except.error a, Except.error b =>
      if h : a = b then isTrue (by rw [h]) else isFalse (by simp [h])
  | Except.ok _, Except.error _ => isFalse (by simp)
  | Except.error _, Except.ok _ => isFalse (by simp)

/-- A database state: the contents of the two tables. -/
structure Db where
  cats : List Category
  imgs : List Image
deriving Repr, DecidableEq

/-! ## Schema constraints (lib/schema.ts)

Each constraint is translated from one clause of the Drizzle schema:
`slug: varchar('slug').notNull().unique()`, the `.primaryKey()` serial ids,
`contentHash: varchar('content_hash').unique()` with
`uniqueIndex('content_hash_idx')` (Postgres unique indexes treat NULLs as
distinct), and `categoryId: integer('category_id').references(() =>
categories.id)` with no `.notNull()`, hence nullable. -/

/-- Uniqueness of `categories.slug` (the `.unique()` constraint). -/
def slugUnique (d : Db) : Prop :=
  d.cats.Pairwise (fun a b => a.slug ≠ b.slug)

/-- Primary-key uniqueness of `categories.id`. -/
def categoryIdUnique (d : Db) : Prop :=
  d.cats.Pairwise (fun a b => a.id ≠ b.id)

/-- Primary-key uniqueness of `images.id`. -/
def imageIdUnique (d : Db) : Prop :=
  d.imgs.Pairwise (fun a b => a.id ≠ b.id)

/-- Uniqueness of the nullable `images.contentHash` column: a Postgres
unique index constrains only non-NULL values, and distinct rows may both
be NULL. -/
def contentHashUnique (d : Db) : Prop :=
  d.imgs.Pairwise
    (fun a b => a.contentHash = none ∨ b.contentHash = none ∨
      a.contentHash ≠ b.contentHash)

/-- Referential integrity of the nullable foreign key `images.categoryId`:
when present it must name an existing category; `none` is always allowed. -/
def categoryFkValid (d : Db) : Prop :=
  ∀ img ∈ d.imgs, ∀ cid, img.categoryId = some cid →
    ∃ c ∈ d.cats, c.id = cid

/-- Conjunction of every constraint the schema declares. -/
def schemaOk (d : Db) : Prop :=
  slugUnique d ∧ categoryIdUnique d ∧ imageIdUnique d ∧
    contentHashUnique d ∧ categoryFkValid d

instance (d : Db) : Decidable (slugUnique d) := by
  unfold slugUnique; infer_instance

instance (d : Db) : Decidable (categoryIdUnique d) := by
  unfold categoryIdUnique; infer_instance

instance (d : Db) : Decidable (imageIdUnique d) := by
  unfold imageIdUnique; infer_instance

instance (d : Db) : Decidable (contentHashUnique d) := by
  unfold contentHashUnique; infer_instance

instance (d : Db) : Decidable (categoryFkValid d) := by
  unfold categoryFkValid
  exact List.decidableBAll _ _

instance (d : Db) : Decidable (schemaOk d) := by
  unfold schemaOk; infer_instance

/-! ## SQL ILIKE semantics

Postgres `ILIKE` pattern matching: case-insensitive, `%` matches any
(possibly empty) substring, `_` matches exactly one character.  Both the
prefix pattern `term%` and the substring pattern `%term%` built by
`searchImages` are instances of this general matcher. -/

/-- The JavaScript builtin `String.prototype.trim`: strip leading and
trailing whitespace. -/
def jsTrim (s : String) : String :=
  String.mk
    (((s.toList.dropWhile Char.isWhitespace).reverse.dropWhile
      Char.isWhitespace).reverse)

/-- Character-list LIKE matcher with explicit fuel (every recursive call
shrinks pattern plus candidate, so the initial fuel below never runs
out): first argument the fuel, second the pattern, third the candidate
string (both already lower-cased by the caller). -/
def likeCharsAux : Nat → List Char → List Char → Bool
  | 0, _, _ => false
  | _ + 1, [], [] => true
  | _ + 1, [], _ :: _ => false
  | n + 1, '%' :: ps, [] => likeCharsAux n ps []
  | n + 1, '%' :: ps, c :: s =>
      likeCharsAux n ps (c :: s) || likeCharsAux n ('%' :: ps) s
  | n + 1, '_' :: ps, _ :: s => likeCharsAux n ps s
  | _ + 1, '_' :: _, [] => false
  | n + 1, p :: ps, c :: s => (p == c) && likeCharsAux n ps s
  | _ + 1, _ :: _, [] => false

/-- Character-list LIKE matcher: first argument the pattern, second the
candidate string. -/
def likeChars (pat s : List Char) : Bool :=
  likeCharsAux (pat.length + s.length + 1) pat s

/-- Postgres `str ILIKE pat`: case-insensitive LIKE. -/
def ilike (str pat : String) : Bool :=
  likeChars (pat.toList.map Char.toLower) (str.toList.map Char.toLower)

/-! ## searchImages (unsplash-faster/lib/queries.ts lines 201-260;
identical logic in part_003 lines 199-260)

The Postgres full-text engine (`to_tsvector('english', title || ' ' ||
COALESCE(description,'')) @@ to_tsquery('english', q)`) is an oracle
`fts`: given the formatted tsquery string it either yields a row matcher
over (title, description) or fails (`none`), modelling a raised error such
as a tsquery syntax error.  The ILIKE paths run in Lean directly. -/

/-- Formatting of the search term for tsquery, from the source:
`trimmedTerm.split(' ').filter(t => t.trim() !== '').map(t => t + ":*").join(' & ')`. -/
def formatSearchTerm (trimmedTerm : String) : String :=
  String.intercalate " & "
    (((trimmedTerm.splitOn " ").filter (fun t => jsTrim t ≠ "")).map
      (fun t => t ++ ":*"))

/-- The oracle type for the Postgres full-text engine: `none` means the
query raised an error; `some p` means the query matches exactly the rows
whose (title, description) satisfy `p`. -/
abbrev FtsOracle : Type :=
  String → Option (String → Option String → Bool)

/-- Shallow embedding of `searchImages`: empty or whitespace-only term
returns `[]`; trimmed length at most 2 runs an ILIKE prefix query
`term%` on `title` with limit 20; otherwise a full-text query with limit
20, and on full-text failure an ILIKE substring query `%term%` with limit
20.  The `Except` result records whether an uncaught error escapes. -/
def searchImages (db : List Image) (fts : FtsOracle) (searchTerm : String) :
    Except Unit (List Image) :=
  if (jsTrim searchTerm).length = 0 then
    Except.ok []
  else
    let trimmedTerm := jsTrim searchTerm
    if trimmedTerm.length ≤ 2 then
      Except.ok ((db.filter
        (fun img => ilike img.title (trimmedTerm ++ "%"))).take 20)
    else
      let formattedSearchTerm := formatSearchTerm trimmedTerm
      match fts formattedSearchTerm with
      | some p =>
          Except.ok ((db.filter
            (fun img => p img.title img.description)).take 20)
      | none =>
          Except.ok ((db.filter
            (fun img => ilike img.title ("%" ++ trimmedTerm ++ "%"))).take 20)

/-! ## getImages (unsplash-faster/lib/queries.ts lines 24-54; same
control flow in part_003 lines 117-149)

The TypeScript parameter is `categorySlug?: string` and the guard is the
JavaScript truthiness test `if (!categorySlug)`, which treats both
`undefined` and the empty string as absent. -/

/-- Shallow embedding of `getImages`: with no slug (or the falsy empty
slug) all images are returned; otherwise the first category with that
slug is looked up, a missing category gives `[]`, and a found category
gives the images whose `categoryId` equals its id. -/
def getImages (d : Db) (categorySlug : Option String) : List Image :=
  match categorySlug with
  | none => d.imgs
  | some slug =>
      if slug = "" then d.imgs
      else
        match d.cats.filter (fun c => c.slug = slug) with
        | [] => []
        | c :: _ => d.imgs.filter (fun img => img.categoryId = some c.id)

/-! ## Signed-URL cache (part_003 lines 23-66)

Time is `Date.now()` in milliseconds, modelled as a `Nat` parameter.  The
S3 signing call `s3Client.getSecureImageUrl(key, expiresIn)` is an oracle
`sign : String → Nat → String`.  The `Map` is an association list whose
`set` removes any previous binding of the key. -/

/-- Signed-URL validity passed to the signer, in seconds: 48 hours. -/
def URL_EXPIRES_IN : Nat := 48 * 60 * 60

/-- Cache-entry validity, in seconds: 47 hours (1 hour buffer). -/
def CACHE_EXPIRES_IN : Nat := 47 * 60 * 60

/-- Cleanup interval, in milliseconds: 2 hours. -/
def CLEANUP_INTERVAL : Nat := 2 * 60 * 60 * 1000

/-- One `urlCache` entry: `{ url, expires }` with `expires` an absolute
millisecond timestamp. -/
structure CachedUrl where
  url : String
  expires : Nat
deriving Repr, DecidableEq

/-- The in-memory `urlCache` as an association list. -/
abbrev UrlCache : Type := List (String × CachedUrl)

/-- `Map.set`: bind `k` to `v`, dropping any previous binding of `k`. -/
def cacheSet (cache : UrlCache) (k : String) (v : CachedUrl) : UrlCache :=
  (k, v) :: cache.filter (fun kv => kv.1 ≠ k)

/-- Shallow embedding of `getCachedSecureUrl`: on a cache hit whose entry
has `expires > now` the cached URL is returned and the cache is unchanged;
otherwise a fresh URL is signed with `URL_EXPIRES_IN` and cached with
expiry `now + CACHE_EXPIRES_IN * 1000`. -/
def getCachedSecureUrl (sign : String → Nat → String) (cache : UrlCache)
    (now : Nat) (s3Key : String) : String × UrlCache :=
  match cache.lookup s3Key with
  | some cached =>
      if now < cached.expires then
        (cached.url, cache)
      else
        let newUrl := sign s3Key URL_EXPIRES_IN
        (newUrl, cacheSet cache s3Key ⟨newUrl, now + CACHE_EXPIRES_IN * 1000⟩)
  | none =>
      let newUrl := sign s3Key URL_EXPIRES_IN
      (newUrl, cacheSet cache s3Key ⟨newUrl, now + CACHE_EXPIRES_IN * 1000⟩)

/-- The `setInterval` cleanup body (part_003 lines 54-66): delete every
entry with `expires <= now`. -/
def cleanupCache (cache : UrlCache) (now : Nat) : UrlCache :=
  cache.filter (fun kv => ¬ kv.2.expires ≤ now)

/-! ## addSecureUrls (part_003 lines 69-102; part_002 lines 24-57)

The per-key signing outcome (`getCachedSecureUrl` in part_003,
`s3Client.getSecureImageUrl(key, 3600)` in part_002) is an oracle
`getSecure : String → Except Unit String`; `Except.error` models a raised
error. -/

/-- Shallow embedding of `addSecureUrls`: when the list is non-empty the
first image's key is test-signed, and a test failure returns the whole
list unchanged; otherwise each image gets its `s3Url` replaced by the
signed URL, with a per-image failure keeping that image unchanged. -/
def addSecureUrls (getSecure : String → Except Unit String)
    (imgs : List Image) : List Image :=
  match imgs with
  | [] => []
  | first :: _ =>
      match getSecure first.s3Key with
      | Except.error _ => imgs
      | Except.ok _ =>
          imgs.map (fun image =>
            match getSecure image.s3Key with
            | Except.ok secureUrl => { image with s3Url := secureUrl }
            | Except.error _ => image)

/-! ## Ingestion (faster-site/lib/ingest.ts lines 55-114)

The Unsplash search for a category and the whole per-image pipeline
(register download, download, S3 upload, DB insert) are oracles; `α` is
the Unsplash search-result item type.  The run's effect on the `images`
table is the list of successfully inserted rows, in order. -/

/-- The hard-coded category list of ingest.ts. -/
structure SearchCategory where
  slug : String
  name : String
  searchTerm : String
deriving Repr, DecidableEq

/-- `SEARCH_CATEGORIES` from ingest.ts. -/
def SEARCH_CATEGORIES : List SearchCategory :=
  [⟨"nature", "Nature", "nature landscape"⟩,
   ⟨"architecture", "Architecture", "architecture building"⟩,
   ⟨"technology", "Technology", "technology computer"⟩,
   ⟨"business", "Business", "business office"⟩,
   ⟨"art", "Art", "art creative"⟩]

/-- `IMAGES_PER_CATEGORY` from ingest.ts. -/
def IMAGES_PER_CATEGORY : Nat := 20

/-- The inner image loop of `ingestFromUnsplash`: iterate over the first
`min(results.length, IMAGES_PER_CATEGORY)` search results; a failed
pipeline for one image is caught and the loop continues; a success
appends the inserted row. -/
def processCategoryImages {α : Type} (process : α → Except Unit Image)
    (results : List α) : List Image :=
  (results.take IMAGES_PER_CATEGORY).foldl
    (fun acc u =>
      match process u with
      | Except.ok row => acc ++ [row]
      | Except.error _ => acc) []

/-- The category loop of `ingestFromUnsplash` over an arbitrary category
list: a failed category search is caught and the loop continues with the
next category. -/
def ingestCategories {α : Type}
    (search : SearchCategory → Except Unit (List α))
    (process : SearchCategory → α → Except Unit Image)
    (cats : List SearchCategory) : List Image :=
  cats.foldl
    (fun acc category =>
      match search category with
      | Except.error _ => acc
      | Except.ok results =>
          acc ++ processCategoryImages (process category) results) []

/-- Shallow embedding of the processing phase of `ingestFromUnsplash`:
the category loop run over `SEARCH_CATEGORIES`, yielding the rows
inserted into the `images` table. -/
def ingestFromUnsplash {α : Type}
    (search : SearchCategory → Except Unit (List α))
    (process : SearchCategory → α → Except Unit Image) : List Image :=
  ingestCategories search process SEARCH_CATEGORIES

/-! ## OptimizedLink cursor proximity
(faster-site/components/OptimizedLink.tsx lines 92-146)

The source computes `Math.sqrt(dx^2 + dy^2) <= prefetchDistance` on the
cursor-to-link-center offsets; since the square root is monotone this is
embedded as the decidable comparison `dx^2 + dy^2 <= prefetchDistance^2`
over the rationals, and the equivalence with the Euclidean-distance form
is proved in the claim theorem. -/

/-- `getBoundingClientRect()` of the link element. -/
structure Rect where
  left : ℚ
  top : ℚ
  width : ℚ
  height : ℚ
deriving Repr, DecidableEq

/-- A mousemove event's cursor coordinates. -/
structure MouseEv where
  clientX : ℚ
  clientY : ℚ
deriving Repr, DecidableEq

/-- The default `prefetchDistance` prop value: 150 pixels. -/
def defaultPrefetchDistance : ℚ := 150

/-- Squared distance from the cursor to the center of the rect. -/
def cursorDistSq (rect : Rect) (e : MouseEv) : ℚ :=
  (e.clientX - (rect.left + rect.width / 2)) ^ 2 +
    (e.clientY - (rect.top + rect.height / 2)) ^ 2

/-- Shallow embedding of `handleMouseMove`'s proximity logic: returns the
new `isNearCursor` state and whether the prefetch actions (route prefetch,
image prefetch, API prefetch) were initiated on this event. -/
def handleMouseMove (prefetchDistance : ℚ) (rect : Rect) (e : MouseEv)
    (wasNear : Bool) : Bool × Bool :=
  let isNear : Bool := decide (cursorDistSq rect e ≤ prefetchDistance ^ 2)
  if isNear && !wasNear then (true, true)
  else if !isNear && wasNear then (false, false)
  else (wasNear, false)

/-! ## prefetchImage de-duplication (part_021 lines 39-67; the simpler
src-only variant is faster-site/components/OptimizedLink.tsx lines 35-49)

The module-level `seenImages : Set<string>` is the state; the key is
`image.srcset || image.src` (JavaScript `||`: an empty `srcset` is falsy
and falls through to `src`). -/

/-- The `PrefetchImage` descriptor of part_021; an absent attribute is
the empty string. -/
structure PrefetchImage where
  srcset : String
  sizes : String
  src : String
  alt : String
  loading : String
deriving Repr, DecidableEq

/-- The de-duplication key `image.srcset || image.src`. -/
def prefetchKey (image : PrefetchImage) : String :=
  if image.srcset = "" then image.src else image.srcset

/-- Shallow embedding of `prefetchImage`: returns the new seen-set and
whether a network fetch was started.  Lazy-loading images and images
whose key is already seen are skipped; otherwise the key is added to the
seen-set before the fetch starts. -/
def prefetchImage (seen : List String) (image : PrefetchImage) :
    List String × Bool :=
  if image.loading = "lazy" ∨ prefetchKey image ∈ seen then (seen, false)
  else (prefetchKey image :: seen, true)

/-! ## Search API route (faster-site/app/api/search/route.ts lines 4-47)

The `q` query parameter is `Option String` (`searchParams.get` returns
null or a string); the guard `!query || query.trim().length === 0`
rejects null, the falsy empty string and whitespace-only strings.  The
`searchImages` call is an oracle `doSearch`; `Except.error` models a
thrown error, caught by the handler's try/catch. -/

/-- The observable JSON response of the route: HTTP status, the `results`
array, and the `count` field when present. -/
structure SearchResponse where
  status : Nat
  results : List Image
  count : Option Nat
deriving Repr, DecidableEq

/-- Shallow embedding of the GET handler.  The second component records
whether `searchImages` was invoked. -/
def searchGET (doSearch : String → Except Unit (List Image))
    (q : Option String) : SearchResponse × Bool :=
  match q with
  | none => (⟨400, [], none⟩, false)
  | some query =>
      if query = "" ∨ (jsTrim query).length = 0 then (⟨400, [], none⟩, false)
      else if query.length > 100 then (⟨400, [], none⟩, false)
      else
        match doSearch query with
        | Except.ok results => (⟨200, results, some results.length⟩, true)
        | Except.error _ => (⟨500, [], none⟩, true)

/-! ## Shared fixtures and helper lemmas -/

/-- A small database with one category and one image in it. -/
def exDb : Db :=
  ⟨[mkCategory 1 "nature" "Nature"],
   [mkImage 1 "Leaf" none "k1" "u1" (some 1)]⟩

/-- A database whose single image belongs to no category. -/
def exDbNoCat : Db :=
  ⟨[], [mkImage 1 "Solo" none "k" "u" none]⟩

/-- Under unique slugs, filtering the category list by a slug held by a
member returns exactly that member. -/
theorem filter_slug_eq {cats : List Category} {c : Category} {slug : String}
    (hmem : c ∈ cats) (hslug : c.slug = slug)
    (huniq : cats.Pairwise (fun a b => a.slug ≠ b.slug)) :
    cats.filter (fun x => x.slug = slug) = [c] := by
  induction cats with
  | nil => cases hmem
  | cons a t ih =>
      rcases List.pairwise_cons.mp huniq with ⟨ha, ht⟩
      rcases List.mem_cons.mp hmem with rfl | hmem'
      · rw [List.filter_cons_of_pos (by simpa using hslug)]
        have hnil : t.filter (fun x => x.slug = slug) = [] := by
          rw [List.filter_eq_nil_iff]
          intro b hb
          simp only [decide_eq_true_eq]
          intro hbs
          exact (ha b hb) (hslug.trans hbs.symm)
        rw [hnil]
      · have hane : ¬ a.slug = slug := fun hx =>
          (ha c hmem') (hx.trans ((hslug).symm ▸ rfl))
        rw [List.filter_cons_of_neg (by simpa using hane)]
        exact ih hmem' ht

/-! ## Claim theorems -/

/-- C4: the schema enforces the stated data-model invariants — distinct
categories never share a slug, distinct images never share a non-null
contentHash, every image's categoryId is either null or references an
existing category, and the constraints are satisfiable with an image that
has no category (categoryId nullable). -/
theorem schema_invariants (d : Db) (h : schemaOk d) :
    (∀ c1 ∈ d.cats, ∀ c2 ∈ d.cats, c1 ≠ c2 → c1.slug ≠ c2.slug) ∧
    (∀ i1 ∈ d.imgs, ∀ i2 ∈ d.imgs, i1 ≠ i2 →
      ∀ hsh : String, i1.contentHash = some hsh → i2.contentHash ≠ some hsh) ∧
    (∀ img ∈ d.imgs, img.categoryId = none ∨
      ∃ c ∈ d.cats, img.categoryId = some c.id) ∧
    (∃ d0 : Db, schemaOk d0 ∧ ∃ img ∈ d0.imgs, img.categoryId = none) := by
  simp only [schemaOk, slugUnique, contentHashUnique, categoryFkValid] at h
  obtain ⟨hs, _, _, hch, hfk⟩ := h
  refine ⟨?_, ?_, ?_, ?_⟩
  · exact fun c1 h1 c2 h2 hne =>
      (hs.forall (fun a b hab => Ne.symm hab)) h1 h2 hne
  · intro i1 h1 i2 h2 hne hsh hc1
    have hr := (hch.forall (fun a b hab => by
      rcases hab with h | h | h
      · exact Or.inr (Or.inl h)
      · exact Or.inl h
      · exact Or.inr (Or.inr (Ne.symm h)))) h1 h2 hne
    rcases hr with h | h | h
    · rw [hc1] at h; cases h
    · rw [h]; exact fun hx => by cases hx
    · rw [hc1] at h
      exact fun hx => h (hx.symm ▸ rfl)
  · intro img him
    cases hcid : img.categoryId with
    | none => exact Or.inl rfl
    | some cid =>
        rcases hfk img him cid hcid with ⟨c, hc, hcideq⟩
        exact Or.inr ⟨c, hc, by rw [hcideq]⟩
  · exact ⟨exDbNoCat, by decide, by decide⟩

/-- C4 witness: a concrete database satisfies the schema and the
nullability consequence holds. -/
theorem schema_invariants_witness :
    schemaOk exDb ∧
      (∃ d0 : Db, schemaOk d0 ∧ ∃ img ∈ d0.imgs, img.categoryId = none) :=
  ⟨by decide, (schema_invariants exDb (by decide)).2.2.2⟩

/-- C2 counterexample: the claim quantifies over every slug, but the
source guard `if (!categorySlug)` treats the empty string as absent, so
for the slug `""` — which names no category of `exDb` — `getImages`
returns all images instead of the empty list. -/
theorem getImages_empty_slug_cex :
    (∀ c ∈ exDb.cats, c.slug ≠ "") ∧ getImages exDb (some "") ≠ [] := by
  decide

/-- C2 (amended): with no slug, or with the falsy empty-string slug,
`getImages` returns all images; for every non-empty slug naming no
category it returns the empty list; and, slugs being unique, for every
non-empty slug naming an existing category it returns exactly the images
whose categoryId equals that category's id. -/
theorem getImages_filtered_set (d : Db) :
    getImages d none = d.imgs ∧
    getImages d (some "") = d.imgs ∧
    (∀ slug : String, slug ≠ "" → (∀ c ∈ d.cats, c.slug ≠ slug) →
      getImages d (some slug) = []) ∧
    (∀ slug : String, slug ≠ "" → slugUnique d → ∀ c ∈ d.cats, c.slug = slug →
      getImages d (some slug) =
        d.imgs.filter (fun img => img.categoryId = some c.id)) := by
  refine ⟨rfl, rfl, ?_, ?_⟩
  · intro slug hne hnone
    have hfil : d.cats.filter (fun x => x.slug = slug) = [] := by
      rw [List.filter_eq_nil_iff]
      intro b hb
      simp only [decide_eq_true_eq]
      exact hnone b hb
    simp only [getImages, if_neg hne, hfil]
  · intro slug hne huniq c hmem hslug
    have hfil : d.cats.filter (fun x => x.slug = slug) = [c] :=
      filter_slug_eq hmem hslug huniq
    simp only [getImages, if_neg hne, hfil]

/-- C2 witness: applying the amended theorem to a concrete database. -/
theorem getImages_filtered_set_witness :
    ("nature" ≠ "" ∧ slugUnique exDb ∧
      mkCategory 1 "nature" "Nature" ∈ exDb.cats) ∧
    getImages exDb (some "nature") =
      exDb.imgs.filter
        (fun img => img.categoryId = some (mkCategory 1 "nature" "Nature").id) :=
  ⟨⟨by decide, by decide, by decide⟩,
    (getImages_filtered_set exDb).2.2.2 "nature" (by decide) (by decide)
      (mkCategory 1 "nature" "Nature") (by decide) (by decide)⟩

/-- A one-image table used to instantiate the search theorems. -/
def exImgs : List Image := [mkImage 1 "A Cat" none "k" "u" none]

/-- A full-text oracle that always raises (e.g. a tsquery syntax error). -/
def exFtsNone : FtsOracle := fun _ => none

/-- C1: searchImages degrades from full-text search to ILIKE — an empty
or whitespace-only term returns the empty list without querying (the
result is independent of the table and of the full-text engine); a
trimmed term of length 1 or 2 runs the ILIKE prefix query `term%`
directly; a trimmed term of length greater than 2 runs the full-text
query over title and description, and when the full-text engine raises an
error the function returns the ILIKE substring query `%term%` result
instead of propagating the error. -/
theorem searchImages_degrades (db : List Image) (fts : FtsOracle)
    (t : String) :
    (jsTrim t = "" → searchImages db fts t = Except.ok []) ∧
    ((jsTrim t).length = 1 ∨ (jsTrim t).length = 2 →
      searchImages db fts t = Except.ok ((db.filter
        (fun img => ilike img.title (jsTrim t ++ "%"))).take 20)) ∧
    (2 < (jsTrim t).length →
      (∀ p, fts (formatSearchTerm (jsTrim t)) = some p →
        searchImages db fts t = Except.ok ((db.filter
          (fun img => p img.title img.description)).take 20)) ∧
      (fts (formatSearchTerm (jsTrim t)) = none →
        searchImages db fts t = Except.ok ((db.filter
          (fun img => ilike img.title ("%" ++ jsTrim t ++ "%"))).take 20))) := by
  refine ⟨?_, ?_, ?_⟩
  · intro h
    have h0 : (jsTrim t).length = 0 := by rw [h]; rfl
    simp only [searchImages, if_pos h0]
  · intro h
    have h0 : ¬ (jsTrim t).length = 0 := by rcases h with h | h <;> omega
    have h2 : (jsTrim t).length ≤ 2 := by rcases h with h | h <;> omega
    simp only [searchImages, if_neg h0, if_pos h2]
  · intro h
    have h0 : ¬ (jsTrim t).length = 0 := by omega
    have h2 : ¬ (jsTrim t).length ≤ 2 := by omega
    constructor
    · intro p hp
      simp only [searchImages, if_neg h0, if_neg h2, hp]
    · intro hp
      simp only [searchImages, if_neg h0, if_neg h2, hp]

/-- C1 witness: on a concrete table, with an always-failing full-text
engine and the term "cat", the ILIKE substring fallback is returned. -/
theorem searchImages_degrades_witness :
    2 < (jsTrim "cat").length ∧
    searchImages exImgs exFtsNone "cat" = Except.ok ((exImgs.filter
      (fun img => ilike img.title ("%" ++ jsTrim "cat" ++ "%"))).take 20) :=
  ⟨by decide,
    ((searchImages_degrades exImgs exFtsNone "cat").2.2 (by decide)).2 rfl⟩

/-- C9: every successful result of searchImages has at most 20 elements —
each of the three query paths applies a limit of 20. -/
theorem searchImages_limit (db : List Image) (fts : FtsOracle) (t : String)
    (r : List Image) (h : searchImages db fts t = Except.ok r) :
    r.length ≤ 20 := by
  simp only [searchImages] at h
  split at h
  · cases h; simp
  · split at h
    · cases h
      rw [List.length_take]
      exact Nat.min_le_left _ _
    · split at h
      · cases h
        rw [List.length_take]
        exact Nat.min_le_left _ _
      · cases h
        rw [List.length_take]
        exact Nat.min_le_left _ _

/-- C9 witness: a concrete search returns one result, within the limit. -/
theorem searchImages_limit_witness :
    searchImages exImgs exFtsNone "cat" =
      Except.ok [mkImage 1 "A Cat" none "k" "u" none] ∧
    ([mkImage 1 "A Cat" none "k" "u" none] : List Image).length ≤ 20 :=
  ⟨by decide, searchImages_limit exImgs exFtsNone "cat" _ (by decide)⟩

/-- A concrete signer for cache witnesses. -/
def exSign : String → Nat → String := fun k _ => "signed-" ++ k

/-- A one-entry URL cache fixture. -/
def exCache : UrlCache := [("k", ⟨"u", 2000⟩)]

/-- C3: the signed-URL cache keeps a validity buffer — URLs are signed
with a 48-hour expiry while the cache entry expires 47 hours ahead; a
cached URL is served only while its entry is unexpired, so any `now`
within an entry's cache lifetime is at least one hour before the end of
the 48-hour signed validity that started when the entry was created; and
the periodic cleanup removes exactly the entries whose expiry has
passed. -/
theorem signed_url_cache_spec :
    URL_EXPIRES_IN = 48 * 60 * 60 ∧
    CACHE_EXPIRES_IN = 47 * 60 * 60 ∧
    (∀ (sign : String → Nat → String) (cache : UrlCache) (now : Nat)
      (key : String) (c : CachedUrl),
      cache.lookup key = some c → now < c.expires →
      getCachedSecureUrl sign cache now key = (c.url, cache)) ∧
    (∀ (sign : String → Nat → String) (cache : UrlCache) (now : Nat)
      (key : String),
      (cache.lookup key = none ∨
        ∃ c : CachedUrl, cache.lookup key = some c ∧ c.expires ≤ now) →
      (getCachedSecureUrl sign cache now key).1 = sign key URL_EXPIRES_IN ∧
      ((getCachedSecureUrl sign cache now key).2).lookup key =
        some ⟨sign key URL_EXPIRES_IN, now + CACHE_EXPIRES_IN * 1000⟩) ∧
    (∀ signTime now : Nat, now < signTime + CACHE_EXPIRES_IN * 1000 →
      now + 60 * 60 * 1000 ≤ signTime + URL_EXPIRES_IN * 1000) ∧
    (∀ (cache : UrlCache) (now : Nat) (kv : String × CachedUrl),
      kv ∈ cleanupCache cache now ↔ kv ∈ cache ∧ now < kv.2.expires) := by
  refine ⟨rfl, rfl, ?_, ?_, ?_, ?_⟩
  · intro sign cache now key c hl hlt
    simp only [getCachedSecureUrl, hl, if_pos hlt]
  · intro sign cache now key h
    rcases h with h | ⟨c, hl, hle⟩
    · constructor
      · simp [getCachedSecureUrl, h]
      · simp [getCachedSecureUrl, h, cacheSet, List.lookup]
    · have hnlt : ¬ now < c.expires := Nat.not_lt.mpr hle
      constructor
      · simp [getCachedSecureUrl, hl, if_neg hnlt]
      · simp [getCachedSecureUrl, hl, if_neg hnlt, cacheSet, List.lookup]
  · intro signTime now h
    simp only [URL_EXPIRES_IN, CACHE_EXPIRES_IN] at h ⊢
    omega
  · intro cache now kv
    simp [cleanupCache, List.mem_filter, Nat.not_le]

/-- C3 witness: a concrete unexpired entry is served from the cache
unchanged. -/
theorem signed_url_cache_witness :
    (exCache.lookup "k" = some ⟨"u", 2000⟩ ∧ (1000 : Nat) < 2000) ∧
    getCachedSecureUrl exSign exCache 1000 "k" = ("u", exCache) :=
  ⟨⟨by decide, by decide⟩,
    signed_url_cache_spec.2.2.1 exSign exCache 1000 "k" ⟨"u", 2000⟩
      (by decide) (by decide)⟩

/-- A concrete signing oracle that fails on the key "bad". -/
def exSecure : String → Except Unit String := fun k =>
  if k = "bad" then Except.error () else Except.ok ("signed-" ++ k)

/-- C5: addSecureUrls never raises and returns a list of the same length
and order in which each element either has its s3Url replaced by a
freshly signed URL, or — when signing for it failed, and in particular
when the whole list is returned untouched after the first element's test
signing failed — keeps its original s3Url and every other field
unchanged. -/
theorem addSecureUrls_preserves (getSecure : String → Except Unit String)
    (imgs : List Image) :
    (addSecureUrls getSecure imgs).length = imgs.length ∧
    ∃ f : Image → Image,
      addSecureUrls getSecure imgs = imgs.map f ∧
      ∀ img : Image,
        (∃ url, getSecure img.s3Key = Except.ok url ∧
          f img = { img with s3Url := url }) ∨ f img = img := by
  have main : ∃ f : Image → Image,
      addSecureUrls getSecure imgs = imgs.map f ∧
      ∀ img : Image,
        (∃ url, getSecure img.s3Key = Except.ok url ∧
          f img = { img with s3Url := url }) ∨ f img = img := by
    cases imgs with
    | nil => exact ⟨id, by simp [addSecureUrls], fun img => Or.inr rfl⟩
    | cons first rest =>
        cases h : getSecure first.s3Key with
        | error e =>
            refine ⟨id, ?_, fun img => Or.inr rfl⟩
            simp [addSecureUrls, h]
        | ok u =>
            refine ⟨fun image =>
              match getSecure image.s3Key with
              | Except.ok secureUrl => { image with s3Url := secureUrl }
              | Except.error _ => image, ?_, ?_⟩
            · simp [addSecureUrls, h]
            · intro img
              cases hh : getSecure img.s3Key with
              | ok url => exact Or.inl ⟨url, rfl, by simp only [hh]⟩
              | error e => exact Or.inr (by simp only [hh])
  obtain ⟨f, hf, hfp⟩ := main
  exact ⟨by rw [hf, List.length_map], f, hf, hfp⟩

/-- C5 witness: on a concrete list with one failing key the output has
the same length. -/
theorem addSecureUrls_preserves_witness :
    (addSecureUrls exSecure
      [mkImage 1 "T" none "k1" "u1" none, mkImage 2 "T2" none "bad" "u2" none]).length =
      ([mkImage 1 "T" none "k1" "u1" none,
        mkImage 2 "T2" none "bad" "u2" none] : List Image).length :=
  (addSecureUrls_preserves exSecure
    [mkImage 1 "T" none "k1" "u1" none, mkImage 2 "T2" none "bad" "u2" none]).1

/-- The inner ingest loop denotes a filterMap over the taken window. -/
theorem foldl_except_append {α : Type} (process : α → Except Unit Image)
    (l : List α) (acc : List Image) :
    l.foldl (fun a u =>
      match process u with
      | Except.ok row => a ++ [row]
      | Except.error _ => a) acc =
      acc ++ l.filterMap (fun u => (process u).toOption) := by
  induction l generalizing acc with
  | nil => simp
  | cons u t ih =>
      rw [List.foldl_cons]
      cases hu : process u with
      | ok row => simp [hu, ih, List.filterMap_cons, Except.toOption]
      | error e => simp [hu, ih, List.filterMap_cons, Except.toOption]

/-- Closed form of `processCategoryImages`. -/
theorem processCategoryImages_eq {α : Type} (process : α → Except Unit Image)
    (results : List α) :
    processCategoryImages process results =
      (results.take IMAGES_PER_CATEGORY).filterMap
        (fun u => (process u).toOption) := by
  unfold processCategoryImages
  rw [foldl_except_append]
  simp

/-- The category loop denotes a flattened per-category map. -/
theorem ingestCategories_eq {α : Type}
    (search : SearchCategory → Except Unit (List α))
    (process : SearchCategory → α → Except Unit Image)
    (cats : List SearchCategory) :
    ingestCategories search process cats =
      (cats.map (fun category =>
        match search category with
        | Except.error _ => []
        | Except.ok results =>
            processCategoryImages (process category) results)).flatten := by
  have go : ∀ (cs : List SearchCategory) (acc : List Image),
      cs.foldl (fun a category =>
        match search category with
        | Except.error _ => a
        | Except.ok results =>
            a ++ processCategoryImages (process category) results) acc =
        acc ++ (cs.map (fun category =>
          match search category with
          | Except.error _ => []
          | Except.ok results =>
              processCategoryImages (process category) results)).flatten := by
    intro cs
    induction cs with
    | nil => intro acc; simp
    | cons c t ih =>
        intro acc
        rw [List.foldl_cons]
        cases hc : search c with
        | ok results => simp [hc, ih]
        | error e => simp [hc, ih]
  unfold ingestCategories
  rw [go]
  simp

/-- C6: ingestion is log-and-continue — the rows inserted by the run are
exactly the concatenation, category by category in order, of the
successfully processed images among the first IMAGES_PER_CATEGORY search
results of every successfully searched category (so one image's failure
skips only that image, and one category's search failure skips only that
category), and every category contributes at most IMAGES_PER_CATEGORY
(20) inserted rows. -/
theorem ingest_log_and_continue {α : Type}
    (search : SearchCategory → Except Unit (List α))
    (process : SearchCategory → α → Except Unit Image) :
    IMAGES_PER_CATEGORY = 20 ∧
    ingestFromUnsplash search process =
      (SEARCH_CATEGORIES.map (fun category =>
        match search category with
        | Except.error _ => []
        | Except.ok results =>
            (results.take IMAGES_PER_CATEGORY).filterMap
              (fun u => (process category u).toOption))).flatten ∧
    (∀ category results, search category = Except.ok results →
      ((results.take IMAGES_PER_CATEGORY).filterMap
        (fun u => (process category u).toOption)).length ≤
        IMAGES_PER_CATEGORY) := by
  refine ⟨rfl, ?_, ?_⟩
  · rw [ingestFromUnsplash, ingestCategories_eq]
    simp only [processCategoryImages_eq]
  · intro category results _
    calc ((results.take IMAGES_PER_CATEGORY).filterMap
          (fun u => (process category u).toOption)).length
        ≤ (results.take IMAGES_PER_CATEGORY).length :=
          List.length_filterMap_le _ _
      _ ≤ IMAGES_PER_CATEGORY := by
          rw [List.length_take]; exact Nat.min_le_left _ _

/-- The first ingest category fixture. -/
def exCat : SearchCategory := ⟨"nature", "Nature", "nature landscape"⟩

/-- A search oracle failing on the art category only. -/
def exIngSearch : SearchCategory → Except Unit (List Nat) := fun c =>
  if c.slug = "art" then Except.error () else Except.ok [0, 1, 2]

/-- A processing oracle failing on item 1 only. -/
def exIngProcess : SearchCategory → Nat → Except Unit Image := fun c n =>
  if n = 1 then Except.error () else Except.ok (mkImage n c.name none "k" "u" none)

/-- C6 witness: a concrete successful category stays within the
per-category bound. -/
theorem ingest_log_and_continue_witness :
    exIngSearch exCat = Except.ok [0, 1, 2] ∧
    (([0, 1, 2].take IMAGES_PER_CATEGORY).filterMap
      (fun u => (exIngProcess exCat u).toOption)).length ≤
      IMAGES_PER_CATEGORY :=
  ⟨by decide,
    (ingest_log_and_continue exIngSearch exIngProcess).2.2 exCat [0, 1, 2]
      (by decide)⟩

/-- C8: image prefetching is de-duplicated by the global seen-set — a
lazy-loading image is never prefetched; a seen key is a no-op starting no
fetch; a non-lazy prefetch records its key; the seen-set only grows; and
after one non-lazy call every later call with the same srcset/src key is
a no-op starting no fetch. -/
theorem prefetch_dedup (seen : List String) (image image2 : PrefetchImage) :
    (image.loading = "lazy" → prefetchImage seen image = (seen, false)) ∧
    (prefetchKey image ∈ seen → prefetchImage seen image = (seen, false)) ∧
    (image.loading ≠ "lazy" →
      prefetchKey image ∈ (prefetchImage seen image).1) ∧
    (∀ k ∈ seen, k ∈ (prefetchImage seen image).1) ∧
    (image.loading ≠ "lazy" → prefetchKey image2 = prefetchKey image →
      prefetchImage (prefetchImage seen image).1 image2 =
        ((prefetchImage seen image).1, false)) := by
  refine ⟨?_, ?_, ?_, ?_, ?_⟩
  · intro h; simp [prefetchImage, h]
  · intro h; simp [prefetchImage, h]
  · intro h
    by_cases hm : prefetchKey image ∈ seen <;> simp [prefetchImage, h, hm]
  · intro k hk
    by_cases hl : image.loading = "lazy"
    · simp [prefetchImage, hl, hk]
    · by_cases hm : prefetchKey image ∈ seen <;>
        simp [prefetchImage, hl, hm, hk]
  · intro hl hkey
    by_cases hm : prefetchKey image ∈ seen
    · simp [prefetchImage, hl, hm, hkey]
    · simp [prefetchImage, hl, hm, hkey]

/-- C8 witness: a key already in the seen-set is a no-op. -/
theorem prefetch_dedup_witness :
    prefetchKey ⟨"", "", "a", "", "eager"⟩ ∈ ["a"] ∧
    prefetchImage ["a"] ⟨"", "", "a", "", "eager"⟩ = (["a"], false) :=
  ⟨by decide,
    (prefetch_dedup ["a"] ⟨"", "", "a", "", "eager"⟩
      ⟨"", "", "a", "", "eager"⟩).2.1 (by decide)⟩

/-- A search oracle (for the route) that always throws. -/
def exSearchErr : String → Except Unit (List Image) := fun _ =>
  Except.error ()

/-- A string of length zero is the empty string. -/
theorem string_length_zero {s : String} (h : s.length = 0) : s = "" := by
  cases s with
  | mk data =>
      simp only [String.length] at h
      rw [List.length_eq_zero] at h
      subst h
      rfl

/-- C10: the search API GET handler validates before querying — a
missing, empty or whitespace-only q, and any q longer than 100
characters, yields HTTP 400 with an empty results array and searchImages
is never invoked; otherwise a normal search yields HTTP 200 with count
equal to the number of results, and a throwing search yields HTTP 500
with an empty results array. -/
theorem search_route_validates (doSearch : String → Except Unit (List Image)) :
    (∀ q : Option String,
      (q = none ∨ ∃ s, q = some s ∧ jsTrim s = "") →
      searchGET doSearch q = (⟨400, [], none⟩, false)) ∧
    (∀ s : String, 100 < s.length →
      searchGET doSearch (some s) = (⟨400, [], none⟩, false)) ∧
    (∀ s : String, jsTrim s ≠ "" → s.length ≤ 100 →
      (∀ r, doSearch s = Except.ok r →
        searchGET doSearch (some s) = (⟨200, r, some r.length⟩, true)) ∧
      (doSearch s = Except.error () →
        searchGET doSearch (some s) = (⟨500, [], none⟩, true))) := by
  refine ⟨?_, ?_, ?_⟩
  · rintro q (rfl | ⟨s, rfl, hs⟩)
    · rfl
    · have h0 : s = "" ∨ (jsTrim s).length = 0 := Or.inr (by rw [hs]; rfl)
      simp only [searchGET, if_pos h0]
  · intro s hlen
    by_cases h0 : s = "" ∨ (jsTrim s).length = 0
    · simp only [searchGET, if_pos h0]
    · simp only [searchGET, if_neg h0, if_pos hlen]
  · intro s hne hlen
    have h0 : ¬ (s = "" ∨ (jsTrim s).length = 0) := by
      rintro (rfl | hzero)
      · exact hne (by decide)
      · exact hne (string_length_zero hzero)
    have h100 : ¬ 100 < s.length := Nat.not_lt.mpr hlen
    constructor
    · intro r hr
      simp only [searchGET, if_neg h0, if_neg h100, hr]
    · intro hr
      simp only [searchGET, if_neg h0, if_neg h100, hr]

/-- C10 witness: a valid query whose search throws returns HTTP 500. -/
theorem search_route_validates_witness :
    (jsTrim "cat" ≠ "" ∧ "cat".length ≤ 100 ∧
      exSearchErr "cat" = Except.error ()) ∧
    searchGET exSearchErr (some "cat") = (⟨500, [], none⟩, true) :=
  ⟨⟨by decide, by decide, rfl⟩,
    ((search_route_validates exSearchErr).2.2 "cat" (by decide)
      (by decide)).2 rfl⟩

/-- A degenerate rect at the origin for the proximity witness. -/
def exRect : Rect := ⟨0, 0, 0, 0⟩

/-- A cursor event 150 pixels from the origin (3-4-5 triangle). -/
def exEv : MouseEv := ⟨90, 120⟩

/-- C7: the cursor-proximity trigger is a Euclidean-distance threshold
check — with the default prefetchDistance of 150 pixels, prefetch is
initiated exactly when the Euclidean distance from the cursor to the
center of the link's bounding rect is within the threshold and the
cursor was not already near, and the stored near state after the event
is exactly whether the cursor is within the threshold (so moving beyond
the threshold resets it and a later approach re-triggers). -/
theorem cursor_proximity_trigger (d : ℚ) (hd : 0 ≤ d) (rect : Rect)
    (e : MouseEv) (wasNear : Bool) :
    defaultPrefetchDistance = 150 ∧
    ((handleMouseMove d rect e wasNear).2 = true ↔
      (Real.sqrt
        (((e.clientX : ℝ) - ((rect.left : ℝ) + (rect.width : ℝ) / 2)) ^ 2 +
         ((e.clientY : ℝ) - ((rect.top : ℝ) + (rect.height : ℝ) / 2)) ^ 2) ≤
          (d : ℝ) ∧ wasNear = false)) ∧
    ((handleMouseMove d rect e wasNear).1 = true ↔
      Real.sqrt
        (((e.clientX : ℝ) - ((rect.left : ℝ) + (rect.width : ℝ) / 2)) ^ 2 +
         ((e.clientY : ℝ) - ((rect.top : ℝ) + (rect.height : ℝ) / 2)) ^ 2) ≤
        (d : ℝ)) := by
  have hcast : ((cursorDistSq rect e : ℚ) : ℝ) =
      ((e.clientX : ℝ) - ((rect.left : ℝ) + (rect.width : ℝ) / 2)) ^ 2 +
      ((e.clientY : ℝ) - ((rect.top : ℝ) + (rect.height : ℝ) / 2)) ^ 2 := by
    simp only [cursorDistSq]
    push_cast
    ring
  have hd' : (0 : ℝ) ≤ (d : ℝ) := by exact_mod_cast hd
  have hbr : (Real.sqrt
      (((e.clientX : ℝ) - ((rect.left : ℝ) + (rect.width : ℝ) / 2)) ^ 2 +
       ((e.clientY : ℝ) - ((rect.top : ℝ) + (rect.height : ℝ) / 2)) ^ 2) ≤
        (d : ℝ)) ↔ cursorDistSq rect e ≤ d ^ 2 := by
    rw [Real.sqrt_le_left hd', ← hcast, ← Rat.cast_pow]
    exact Rat.cast_le
  refine ⟨rfl, ?_, ?_⟩
  · rw [hbr]
    by_cases hq : cursorDistSq rect e ≤ d ^ 2 <;> cases wasNear <;>
      simp [handleMouseMove, hq]
  · rw [hbr]
    by_cases hq : cursorDistSq rect e ≤ d ^ 2 <;> cases wasNear <;>
      simp [handleMouseMove, hq]

/-- C7 witness: the theorem applied at the default distance to a cursor
exactly 150 pixels from the center of a degenerate rect. -/
theorem cursor_proximity_trigger_witness :
    (0 : ℚ) ≤ 150 ∧
    (defaultPrefetchDistance = 150 ∧
     ((handleMouseMove 150 exRect exEv false).2 = true ↔
       (Real.sqrt
         (((exEv.clientX : ℝ) - ((exRect.left : ℝ) + (exRect.width : ℝ) / 2)) ^ 2 +
          ((exEv.clientY : ℝ) - ((exRect.top : ℝ) + (exRect.height : ℝ) / 2)) ^ 2) ≤
           ((150 : ℚ) : ℝ) ∧ false = false)) ∧
     ((handleMouseMove 150 exRect exEv false).1 = true ↔
       Real.sqrt
         (((exEv.clientX : ℝ) - ((exRect.left : ℝ) + (exRect.width : ℝ) / 2)) ^ 2 +
          ((exEv.clientY : ℝ) - ((exRect.top : ℝ) + (exRect.height : ℝ) / 2)) ^ 2) ≤
         ((150 : ℚ) : ℝ))) :=
  ⟨by norm_num, cursor_proximity_trigger 150 (by norm_num) exRect exEv false⟩

end FasterSite
